import Mathlib

/-!
# FinTrack backend — shallow embedding and verification

This file embeds, in Lean 4, the backend resolver logic of the FinTrack
finance-tracking application (budget aggregation, budget overlap checking,
family membership / permission operations, transaction CRUD and listing,
category listing, shopping-list purchase marking) and proves or refutes the
specification claims about it.

Conventions of the embedding:
* JavaScript numbers that hold monetary values are modelled as exact
  rationals (`ℚ`).
* Database ids (cuid strings in the source) are modelled as `Nat`.
* `Date` values are modelled at day granularity as (year, month, day)
  triples ordered chronologically; `date-fns` `endOfMonth` / `endOfYear`
  become the last calendar day of the month / year.
* Prisma tables become Lean lists held in a `State` record; `findFirst`
  becomes `List.find?`, `findMany` becomes `List.filter` (the purely
  presentational `orderBy` clauses of the budget and category queries are
  not modelled; the `orderBy: { date: 'desc' }` of the transaction query,
  which interacts with pagination, is modelled as a stable insertion sort).
* Thrown `AppError`s become `Except.error` of an `AppErr` record carrying
  the message, HTTP status and optional machine code, mirroring the
  `AppError(message, statusCode, code)` constructor.
-/

/-- Calendar date at day granularity (the resolvers only compare dates and
compute end-of-month / end-of-year, so day granularity is faithful). -/
structure Date where
  year : Nat
  month : Nat
  day : Nat
deriving DecidableEq, Repr

/-- Chronological key: injective on calendar dates (month < 16, day < 32),
so `key`-order coincides with timestamp order used by JS `Date`. -/
def Date.key (d : Date) : Nat :=
  (d.year * 16 + d.month) * 32 + d.day

instance : LE Date := ⟨fun a b => a.key ≤ b.key⟩
instance : LT Date := ⟨fun a b => a.key < b.key⟩

instance (a b : Date) : Decidable (a ≤ b) := Nat.decLe a.key b.key
instance (a b : Date) : Decidable (a < b) := Nat.decLt a.key b.key

theorem Date.le_def (a b : Date) : a ≤ b ↔ a.key ≤ b.key := Iff.rfl

/-- Leap-year rule of the Gregorian calendar (as implemented by JS dates). -/
def isLeapYear (y : Nat) : Bool :=
  (y % 4 == 0 && y % 100 != 0) || (y % 400 == 0)

/-- Number of days in a month (JS / date-fns calendar). -/
def daysInMonth (y m : Nat) : Nat :=
  if m == 2 then (if isLeapYear y then 29 else 28)
  else if m == 4 || m == 6 || m == 9 || m == 11 then 30
  else 31

/-- `date-fns` `endOfMonth` at day granularity: last day of the date's month. -/
def endOfMonth (d : Date) : Date :=
  ⟨d.year, d.month, daysInMonth d.year d.month⟩

/-- `date-fns` `endOfYear` at day granularity: December 31 of the date's year. -/
def endOfYear (d : Date) : Date :=
  ⟨d.year, 12, 31⟩

/-- A calendar-valid date: month in 1..12, day in 1..days-of-month. -/
def Date.valid (d : Date) : Prop :=
  1 ≤ d.month ∧ d.month ≤ 12 ∧ 1 ≤ d.day ∧ d.day ≤ daysInMonth d.year d.month

instance (d : Date) : Decidable d.valid := by
  unfold Date.valid; infer_instance

theorem daysInMonth_le_31 (y m : Nat) : daysInMonth y m ≤ 31 := by
  unfold daysInMonth
  split <;> [split <;> omega; skip]
  split <;> omega

theorem le_endOfMonth_self {d : Date} (h : d.valid) : d ≤ endOfMonth d := by
  obtain ⟨_, _, _, h4⟩ := h
  simp only [Date.le_def, endOfMonth, Date.key]
  omega

theorem le_endOfYear_self {d : Date} (h : d.valid) : d ≤ endOfYear d := by
  obtain ⟨_, h2, _, h4⟩ := h
  have h31 := daysInMonth_le_31 d.year d.month
  simp only [Date.le_def, endOfYear, Date.key]
  omega

/-- Prisma `TransactionType` enum. -/
inductive TxType | INCOME | EXPENSE
deriving DecidableEq, Repr

/-- Prisma `BudgetPeriod` enum. -/
inductive BudgetPeriod | MONTHLY | YEARLY
deriving DecidableEq, Repr

/-- Prisma `FamilyRole` enum. -/
inductive FamilyRole | ADMIN | MEMBER | VIEWER
deriving DecidableEq, Repr

/-- The `AppError(message, statusCode, code?)` shape thrown by resolvers. -/
structure AppErr where
  message : String
  status : Nat
  code : Option String := none
deriving DecidableEq, Repr

/-- `transaction` table row. -/
structure Transaction where
  id : Nat
  amount : ℚ
  description : String
  type : TxType
  date : Date
  categoryId : Nat
  userId : Nat
  familyId : Option Nat
deriving DecidableEq, Repr

/-- `budget` table row (spent/remaining/percentage/status are derived,
never stored). -/
structure Budget where
  id : Nat
  categoryId : Nat
  amount : ℚ
  period : BudgetPeriod
  startDate : Date
  endDate : Date
  userId : Nat
  familyId : Option Nat
deriving DecidableEq, Repr

/-- `category` table row. -/
structure Category where
  id : Nat
  name : String
  type : TxType
  userId : Option Nat
  isDefault : Bool
deriving DecidableEq, Repr

/-- `familyMember` table row. -/
structure FamilyMember where
  id : Nat
  familyId : Nat
  userId : Nat
  role : FamilyRole
  permissions : List String
deriving DecidableEq, Repr

/-- `user` table row (fields the embedded resolvers consult). -/
structure User where
  id : Nat
  email : String
  name : String
deriving DecidableEq, Repr

/-- `shoppingList` table row (fields the embedded resolvers consult). -/
structure ShoppingList where
  id : Nat
  userId : Nat
  sharedWith : List String
  familyId : Option Nat
deriving DecidableEq, Repr

/-- `shoppingListItem` table row. -/
structure ShoppingListItem where
  id : Nat
  listId : Nat
  name : String
  estimatedPrice : ℚ
  actualPrice : Option ℚ
  categoryId : Option Nat
  purchased : Bool
  purchasedAt : Option Date
  purchasedBy : Option Nat
  transactionId : Option Nat
deriving DecidableEq, Repr

/-- The database state: one list per table plus a fresh-id counter
standing for Prisma's cuid generation. -/
structure State where
  users : List User
  categories : List Category
  transactions : List Transaction
  budgets : List Budget
  members : List FamilyMember
  lists : List ShoppingList
  items : List ShoppingListItem
  nextId : Nat
deriving DecidableEq, Repr

/-- The empty database. -/
def State.empty : State := ⟨[], [], [], [], [], [], [], 1⟩

/-- `BudgetResolver.calculateSpentAmount`: Prisma aggregate `_sum.amount`
over transactions matching the budget's category, owner, family scope
(`budget.familyId || null`), `type: 'EXPENSE'`, and
`date: { gte: startDate, lte: endDate }`; `result._sum.amount || 0`
makes the empty sum 0. -/
def calculateSpentAmount (b : Budget) (txs : List Transaction) : ℚ :=
  ((txs.filter (fun t =>
    t.categoryId == b.categoryId &&
    t.userId == b.userId &&
    t.familyId == b.familyId &&
    t.type == TxType.EXPENSE &&
    decide (b.startDate ≤ t.date) &&
    decide (t.date ≤ b.endDate))).map (fun t => t.amount)).sum

/-- A budget row together with its derived (virtual) fields, as returned
by the budget operations. -/
structure BudgetView where
  id : Nat
  categoryId : Nat
  amount : ℚ
  period : BudgetPeriod
  startDate : Date
  endDate : Date
  userId : Nat
  familyId : Option Nat
  spent : ℚ
  remaining : ℚ
  percentage : ℚ
  status : String
deriving DecidableEq, Repr

/-- The derived-field computation shared verbatim by `budgets`, `budget`,
`createBudget` and `updateBudget`:
`remaining = amount - spent`,
`percentage = amount > 0 ? (spent / amount) * 100 : 0`,
`status = percentage >= 100 ? 'danger' : percentage >= 80 ? 'warning' : 'good'`. -/
def enrichBudget (b : Budget) (txs : List Transaction) : BudgetView :=
  let spent := calculateSpentAmount b txs
  let remaining := b.amount - spent
  let percentage := if 0 < b.amount then spent / b.amount * 100 else 0
  let status :=
    if 100 ≤ percentage then "danger"
    else if 80 ≤ percentage then "warning"
    else "good"
  { id := b.id, categoryId := b.categoryId, amount := b.amount,
    period := b.period, startDate := b.startDate, endDate := b.endDate,
    userId := b.userId, familyId := b.familyId,
    spent := spent, remaining := remaining, percentage := percentage,
    status := status }

/-- The family-access pre-check shared by `budgets`, `createBudget` and
`createTransaction`: when a family id is supplied, the caller must have a
membership row in that family. -/
def familyAccessDenied (familyId : Option Nat) (caller : Nat) (s : State) :
    Bool :=
  match familyId with
  | some fid =>
    (s.members.find? (fun m => m.familyId == fid && m.userId == caller)).isNone
  | none => false

/-- The rows of `BudgetResolver.budgets`: owner filter plus the optional
period and family filters. -/
def budgetRows (period : Option BudgetPeriod) (familyId : Option Nat)
    (caller : Nat) (s : State) : List Budget :=
  s.budgets.filter (fun b =>
    b.userId == caller &&
    (match period with | some p => b.period == p | none => true) &&
    (match familyId with | some fid => b.familyId == some fid | none => true))

/-- `BudgetResolver.budgets`: filter by owner, optional period, optional
family id (the latter only after a membership check), then attach derived
fields. The purely presentational `orderBy` is not modelled. -/
def budgetsQuery (period : Option BudgetPeriod) (familyId : Option Nat)
    (caller : Nat) (s : State) : Except AppErr (List BudgetView) :=
  if familyAccessDenied familyId caller s then
    .error ⟨"Access denied to family", 403, none⟩
  else
    .ok ((budgetRows period familyId caller s).map
      (fun b => enrichBudget b s.transactions))

/-- `BudgetResolver.budget`: `findFirst` by id and owner; `null` when
absent, otherwise the enriched row. -/
def budgetQuery (id : Nat) (caller : Nat) (s : State) :
    Except AppErr (Option BudgetView) :=
  match s.budgets.find? (fun b => b.id == id && b.userId == caller) with
  | none => .ok none
  | some b => .ok (some (enrichBudget b s.transactions))

/-- End date derived from the period, as in `createBudget`:
`endOfMonth(startDate)` for `MONTHLY`, else `endOfYear(startDate)`. -/
def periodEnd (p : BudgetPeriod) (startDate : Date) : Date :=
  match p with
  | .MONTHLY => endOfMonth startDate
  | .YEARLY => endOfYear startDate

/-- `CreateBudgetInput`. -/
structure CreateBudgetInput where
  categoryId : Nat
  amount : ℚ
  period : BudgetPeriod
  startDate : Date
  familyId : Option Nat
deriving DecidableEq, Repr

/-- The three-disjunct overlap test of `createBudget`'s `findFirst`:
(start ≤ p.start ∧ end ≥ p.start) ∨ (start ≤ p.end ∧ end ≥ p.end) ∨
(start ≥ p.start ∧ end ≤ p.end). -/
def overlapCheck (b : Budget) (pstart pend : Date) : Bool :=
  (decide (b.startDate ≤ pstart) && decide (pstart ≤ b.endDate)) ||
  (decide (b.startDate ≤ pend) && decide (pend ≤ b.endDate)) ||
  (decide (pstart ≤ b.startDate) && decide (b.endDate ≤ pend))

/-- `BudgetResolver.createBudget`: amount check, category visibility,
end-date derivation, overlap check among the same
(category, owner, family, period) group, family-access check, insert,
and enrichment of the created row. -/
def createBudget (input : CreateBudgetInput) (caller : Nat) (s : State) :
    Except AppErr (State × BudgetView) :=
  if input.amount ≤ 0 then
    .error ⟨"Budget amount must be greater than 0", 400, some "VALIDATION_ERROR"⟩
  else if (s.categories.find? (fun c =>
      c.id == input.categoryId && (c.userId == some caller || c.isDefault))).isNone then
    .error ⟨"Category not found", 404, none⟩
  else
    let endDate := periodEnd input.period input.startDate
    if (s.budgets.find? (fun b =>
        b.categoryId == input.categoryId &&
        b.userId == caller &&
        b.familyId == input.familyId &&
        b.period == input.period &&
        overlapCheck b input.startDate endDate)).isSome then
      .error ⟨"A budget for this category and period already exists", 409,
        some "BUDGET_EXISTS"⟩
    else if familyAccessDenied input.familyId caller s then
      .error ⟨"Access denied to family", 403, none⟩
    else
      let b : Budget :=
        { id := s.nextId, categoryId := input.categoryId, amount := input.amount,
          period := input.period, startDate := input.startDate, endDate := endDate,
          userId := caller, familyId := input.familyId }
      let s' := { s with budgets := s.budgets ++ [b], nextId := s.nextId + 1 }
      .ok (s', enrichBudget b s'.transactions)

/-- `UpdateBudgetInput` (all fields optional). -/
structure UpdateBudgetInput where
  amount : Option ℚ
  period : Option BudgetPeriod
  startDate : Option Date
deriving DecidableEq, Repr

/-- `BudgetResolver.updateBudget`: find by id and owner, validate a
provided amount, apply the provided fields, recomputing the end date from
`input.startDate || existing.startDate` when the period changes and from
`input.period || existing.period` when the start date changes.  Note: no
overlap check is performed. -/
def updateBudget (id : Nat) (input : UpdateBudgetInput) (caller : Nat)
    (s : State) : Except AppErr (State × BudgetView) :=
  match s.budgets.find? (fun b => b.id == id && b.userId == caller) with
  | none => .error ⟨"Budget not found", 404, none⟩
  | some b0 =>
    if (match input.amount with | some a => decide (a ≤ 0) | none => false) then
      .error ⟨"Budget amount must be greater than 0", 400,
        some "VALIDATION_ERROR"⟩
    else
      let b1 := match input.amount with
        | some a => { b0 with amount := a }
        | none => b0
      let b2 := match input.period with
        | some p =>
          { b1 with
            period := p
            endDate := periodEnd p (input.startDate.getD b0.startDate) }
        | none => b1
      let b3 := match input.startDate with
        | some sd =>
          { b2 with
            startDate := sd
            endDate := periodEnd (input.period.getD b0.period) sd }
        | none => b2
      let s' := { s with
        budgets := s.budgets.map (fun x => if x.id == id then b3 else x) }
      .ok (s', enrichBudget b3 s'.transactions)

/-- Number of ADMIN members of a family (`familyMember.count` with
`role: ADMIN`). -/
def adminCount (familyId : Nat) (s : State) : Nat :=
  (s.members.filter (fun m =>
    m.familyId == familyId && m.role == FamilyRole.ADMIN)).length

/-- `FamilyResolver.verifyFamilyPermission`: missing membership fails with
a 404 that does not distinguish non-existence from denial; admins pass
unconditionally; otherwise the permission string must be in the stored
array. -/
def verifyFamilyPermission (familyId userId : Nat) (permission : String)
    (s : State) : Except AppErr Unit :=
  match s.members.find? (fun m => m.familyId == familyId && m.userId == userId) with
  | none => .error ⟨"Family not found or access denied", 404, none⟩
  | some m =>
    if m.role == FamilyRole.ADMIN then .ok ()
    else if m.permissions.contains permission then .ok ()
    else .error ⟨"Access denied. " ++ permission ++ " permission required.",
      403, none⟩

/-- The test of the email regex `/^[^\s@]+@[^\s@]+\.[^\s@]+$/` used by
`inviteMember`: exactly one `@`, no whitespace, a non-empty local part,
and after the `@` a dot with at least one character on each side. -/
def emailRegexTest (email : String) : Bool :=
  match email.splitOn "@" with
  | [lp, dom] =>
    lp ≠ "" &&
    (lp.toList ++ dom.toList).all (fun c => !c.isWhitespace) &&
    ((dom.toList.drop 1).dropLast.contains '.')
  | _ => false

/-- `InviteMemberInput`. -/
structure InviteMemberInput where
  email : String
  role : FamilyRole
  permissions : List String
deriving DecidableEq, Repr

/-- `FamilyResolver.inviteMember`: MANAGE_MEMBERS permission, email-shape
validation, lookup of the invited user by lowercased email, duplicate
membership check, then insertion of the membership row. -/
def inviteMember (familyId : Nat) (input : InviteMemberInput) (caller : Nat)
    (s : State) : Except AppErr State :=
  match verifyFamilyPermission familyId caller "MANAGE_MEMBERS" s with
  | .error e => .error e
  | .ok _ =>
    if !emailRegexTest input.email then
      .error ⟨"Invalid email address", 400, some "VALIDATION_ERROR"⟩
    else
      match s.users.find? (fun u => u.email == input.email.toLower) with
      | none =>
        .error ⟨"User with this email address not found", 404,
          some "USER_NOT_FOUND"⟩
      | some invited =>
        if (s.members.find? (fun m =>
            m.familyId == familyId && m.userId == invited.id)).isSome then
          .error ⟨"User is already a member of this family", 409,
            some "ALREADY_MEMBER"⟩
        else
          .ok { s with
            members := s.members ++
              [{ id := s.nextId, familyId := familyId, userId := invited.id,
                 role := input.role, permissions := input.permissions }],
            nextId := s.nextId + 1 }

/-- `UpdateMemberInput` (all fields optional). -/
structure UpdateMemberInput where
  role : Option FamilyRole
  permissions : Option (List String)
deriving DecidableEq, Repr

/-- `FamilyResolver.updateMember`: MANAGE_MEMBERS permission, member
lookup, self-modification guard, then the role/permission update.  Note:
no last-admin check is performed here. -/
def updateMember (familyId memberId : Nat) (input : UpdateMemberInput)
    (caller : Nat) (s : State) : Except AppErr (State × FamilyMember) :=
  match verifyFamilyPermission familyId caller "MANAGE_MEMBERS" s with
  | .error e => .error e
  | .ok _ =>
    match s.members.find? (fun m => m.id == memberId && m.familyId == familyId) with
    | none => .error ⟨"Family member not found", 404, none⟩
    | some m =>
      if m.userId == caller then
        .error ⟨"Cannot modify your own role or permissions", 400,
          some "SELF_MODIFICATION"⟩
      else
        let m1 := match input.role with
          | some r => { m with role := r }
          | none => m
        let m2 := match input.permissions with
          | some ps => { m1 with permissions := ps }
          | none => m1
        .ok ({ s with
          members := s.members.map (fun x => if x.id == memberId then m2 else x) },
          m2)

/-- `FamilyResolver.removeMember`: member lookup; self-removal is free,
removing someone else needs MANAGE_MEMBERS; removing an ADMIN is rejected
with LAST_ADMIN when the family's admin count is exactly 1. -/
def removeMember (familyId memberId : Nat) (caller : Nat) (s : State) :
    Except AppErr State :=
  match s.members.find? (fun m => m.id == memberId && m.familyId == familyId) with
  | none => .error ⟨"Family member not found", 404, none⟩
  | some m =>
    match (if m.userId != caller then
        verifyFamilyPermission familyId caller "MANAGE_MEMBERS" s
      else .ok ()) with
    | .error e => .error e
    | .ok _ =>
      if m.role == FamilyRole.ADMIN && adminCount familyId s == 1 then
        .error ⟨"Cannot remove the last admin from the family", 400,
          some "LAST_ADMIN"⟩
      else
        .ok { s with members := s.members.filter (fun x => x.id != memberId) }

/-- `FamilyResolver.leaveFamily`: membership lookup for the caller; an
ADMIN may not leave when the admin count is exactly 1. -/
def leaveFamily (familyId : Nat) (caller : Nat) (s : State) :
    Except AppErr State :=
  match s.members.find? (fun m => m.familyId == familyId && m.userId == caller) with
  | none => .error ⟨"You are not a member of this family", 404, none⟩
  | some m =>
    if m.role == FamilyRole.ADMIN && adminCount familyId s == 1 then
      .error ⟨"Cannot leave family as the last admin. Transfer admin role first.",
        400, some "LAST_ADMIN"⟩
    else
      .ok { s with members := s.members.filter (fun x => x.id != m.id) }

/-- `TransactionFiltersInput` (all fields optional). -/
structure TransactionFilters where
  startDate : Option Date
  endDate : Option Date
  categoryIds : Option (List Nat)
  type : Option TxType
  minAmount : Option ℚ
  maxAmount : Option ℚ
  search : Option String
  familyId : Option Nat
deriving DecidableEq, Repr

/-- The Prisma `where` clause built by `TransactionResolver.transactions`:
always `userId = caller`, plus whichever filters are present (an empty
`categoryIds` array and an empty `search` string are ignored, as the
source's truthiness checks do). -/
def txMatchesFilters (filters : Option TransactionFilters) (caller : Nat)
    (t : Transaction) : Bool :=
  t.userId == caller &&
  match filters with
  | none => true
  | some f =>
    (match f.startDate, f.endDate with
     | some a, some b => decide (a ≤ t.date) && decide (t.date ≤ b)
     | some a, none => decide (a ≤ t.date)
     | none, some b => decide (t.date ≤ b)
     | none, none => true) &&
    (match f.categoryIds with
     | some ids => if 0 < ids.length then ids.contains t.categoryId else true
     | none => true) &&
    (match f.type with | some ty => t.type == ty | none => true) &&
    (match f.minAmount with | some m => decide (m ≤ t.amount) | none => true) &&
    (match f.maxAmount with | some m => decide (t.amount ≤ m) | none => true) &&
    (match f.search with
     | some q =>
       if q ≠ "" then
         decide (q.toLower.toList <:+: t.description.toLower.toList)
       else true
     | none => true) &&
    (match f.familyId with | some fid => t.familyId == some fid | none => true)

/-- One step of a stable insertion sort by descending date, modelling the
relational `orderBy: { date: 'desc' }` (any stable order among equal dates
is a faithful model of the unspecified tie order). -/
def insertByDateDesc (t : Transaction) : List Transaction → List Transaction
  | [] => [t]
  | x :: xs =>
    if x.date ≤ t.date then t :: x :: xs else x :: insertByDateDesc t xs

/-- Stable sort by descending date. -/
def sortByDateDesc (l : List Transaction) : List Transaction :=
  l.foldr insertByDateDesc []

/-- The `TransactionConnection` page shape. -/
structure TransactionConnection where
  transactions : List Transaction
  total : Nat
  page : Nat
  limit : Nat
  hasNext : Bool
  hasPrev : Bool
deriving DecidableEq, Repr

/-- `TransactionResolver.transactions`: filter by owner and the optional
filters, order by date descending, paginate with
`skip = (page - 1) * limit` and `take = limit`. -/
def transactionsQuery (page limit : Nat) (filters : Option TransactionFilters)
    (caller : Nat) (s : State) : TransactionConnection :=
  let matched := s.transactions.filter (txMatchesFilters filters caller)
  let skip := (page - 1) * limit
  let sorted := sortByDateDesc matched
  { transactions := (sorted.drop skip).take limit
    total := matched.length
    page := page
    limit := limit
    hasNext := skip + limit < matched.length
    hasPrev := 1 < page }

/-- `CreateTransactionInput`. -/
structure CreateTransactionInput where
  amount : ℚ
  description : String
  type : TxType
  date : Date
  categoryId : Nat
  familyId : Option Nat
deriving DecidableEq, Repr

/-- `String.prototype.trim`: leading and trailing whitespace removed,
implemented over the character list (Lean's own `String.trim`, though
equivalent, is opaque to kernel reduction). -/
def strTrim (s : String) : String :=
  ⟨((s.data.dropWhile Char.isWhitespace).reverse.dropWhile
    Char.isWhitespace).reverse⟩

/-- `TransactionResolver.createTransaction`: amount and description
validation, category visibility, optional family-membership check, then
the insert.  Note: the only amount validation is `amount <= 0`. -/
def createTransaction (input : CreateTransactionInput) (caller : Nat)
    (s : State) : Except AppErr (State × Transaction) :=
  if input.amount ≤ 0 then
    .error ⟨"Amount must be greater than 0", 400, some "VALIDATION_ERROR"⟩
  else if strTrim input.description == "" then
    .error ⟨"Description is required", 400, some "VALIDATION_ERROR"⟩
  else if (s.categories.find? (fun c =>
      c.id == input.categoryId && (c.userId == some caller || c.isDefault))).isNone then
    .error ⟨"Category not found", 404, none⟩
  else if familyAccessDenied input.familyId caller s then
    .error ⟨"Access denied to family", 403, none⟩
  else
    let t : Transaction :=
      { id := s.nextId
        amount := input.amount
        description := strTrim input.description
        type := input.type
        date := input.date
        categoryId := input.categoryId
        userId := caller
        familyId := input.familyId }
    .ok ({ s with transactions := s.transactions ++ [t], nextId := s.nextId + 1 }, t)

/-- `UpdateTransactionInput` (all fields optional). -/
structure UpdateTransactionInput where
  amount : Option ℚ
  description : Option String
  type : Option TxType
  date : Option Date
  categoryId : Option Nat
deriving DecidableEq, Repr

/-- `TransactionResolver.updateTransaction`: find by id and owner, then
validate and apply each provided field.  As in `createTransaction`, the
only amount validation is `amount <= 0`. -/
def updateTransaction (id : Nat) (input : UpdateTransactionInput)
    (caller : Nat) (s : State) : Except AppErr (State × Transaction) :=
  match s.transactions.find? (fun t => t.id == id && t.userId == caller) with
  | none => .error ⟨"Transaction not found", 404, none⟩
  | some t0 =>
    if (match input.amount with | some a => decide (a ≤ 0) | none => false) then
      .error ⟨"Amount must be greater than 0", 400, some "VALIDATION_ERROR"⟩
    else if (match input.description with
        | some d => strTrim d == "" | none => false) then
      .error ⟨"Description cannot be empty", 400, some "VALIDATION_ERROR"⟩
    else if (match input.categoryId with
        | some cid => (s.categories.find? (fun (c : Category) =>
            c.id == cid && (c.userId == some caller || c.isDefault))).isNone
        | none => false) then
      .error ⟨"Category not found", 404, none⟩
    else
      let t1 := match input.amount with
        | some a => { t0 with amount := a }
        | none => t0
      let t2 := match input.description with
        | some d => { t1 with description := strTrim d }
        | none => t1
      let t3 := match input.type with | some ty => { t2 with type := ty } | none => t2
      let t4 := match input.date with | some dt => { t3 with date := dt } | none => t3
      let t5 := match input.categoryId with
        | some cid => { t4 with categoryId := cid }
        | none => t4
      .ok ({ s with
        transactions := s.transactions.map
          (fun (x : Transaction) => if x.id == id then t5 else x) },
        t5)

/-- `CategoryResolver.categories`: the caller's own and the default
categories, optionally restricted to one transaction type.  The purely
presentational `orderBy` is not modelled. -/
def categoriesQuery (ty : Option TxType) (caller : Nat) (s : State) :
    List Category :=
  s.categories.filter (fun c =>
    (c.userId == some caller || c.isDefault) &&
    (match ty with | some t => c.type == t | none => true))

/-- `isValidAmount` from `utils/validation.ts` reduced to its boolean
verdict: non-negative, at most 999999999.99, and (the
`toString().split('.')[1].length > 2` check, read over exact rationals)
at most two decimal places, i.e. `100 * amount` is an integer.  The NaN
branch has no counterpart for `ℚ`. -/
def isValidAmount (amount : ℚ) : Bool :=
  decide (0 ≤ amount) &&
  decide (amount ≤ mkRat 99999999999 100) &&
  (amount * 100).den == 1

/-- `MarkItemPurchasedInput`. -/
structure MarkItemPurchasedInput where
  actualPrice : Option ℚ
  createTransaction : Bool
deriving DecidableEq, Repr

/-- The `input.actualPrice || item.estimatedPrice` fallback of
`markItemPurchased`: an omitted/null price and the (falsy) price 0 both
fall back to the item's estimated price. -/
def resolvedActualPrice (input : MarkItemPurchasedInput)
    (item : ShoppingListItem) : ℚ :=
  match input.actualPrice with
  | none => item.estimatedPrice
  | some p => if p == 0 then item.estimatedPrice else p

/-- `ShoppingListResolver.markItemPurchased`: item lookup (with its list
row — a missing list row is impossible under referential integrity and is
mapped to the same 404), owner-or-shared access check, the purchased
update with the price fallback, and, when requested and the item has a
category, creation of a linked EXPENSE transaction dated now.  The
returned item view is the one from the first update, before the
transaction link is written. -/
def markItemPurchased (itemId : Nat) (input : MarkItemPurchasedInput)
    (caller : Nat) (callerEmail : String) (now : Date) (s : State) :
    Except AppErr (State × ShoppingListItem) :=
  match s.items.find? (fun i => i.id == itemId) with
  | none => .error ⟨"Shopping list item not found", 404, none⟩
  | some item =>
    match s.lists.find? (fun l => l.id == item.listId) with
    | none => .error ⟨"Shopping list item not found", 404, none⟩
    | some list =>
      if !(list.userId == caller || list.sharedWith.contains callerEmail) then
        .error ⟨"Access denied to shopping list item", 403, none⟩
      else
        let actualPrice := resolvedActualPrice input item
        let updatedItem := { item with
          purchased := true
          purchasedAt := some now
          purchasedBy := some caller
          actualPrice := some actualPrice }
        let s1 := { s with
          items := s.items.map (fun x => if x.id == itemId then updatedItem else x) }
        match input.createTransaction, item.categoryId with
        | true, some cid =>
          let tx : Transaction :=
            { id := s1.nextId
              amount := actualPrice
              description := "Shopping: " ++ item.name
              type := TxType.EXPENSE
              date := now
              categoryId := cid
              userId := caller
              familyId := list.familyId }
          let s2 := { s1 with
            transactions := s1.transactions ++ [tx]
            items := s1.items.map (fun x =>
              if x.id == itemId then { updatedItem with transactionId := some tx.id }
              else x)
            nextId := s1.nextId + 1 }
          .ok (s2, updatedItem)
        | _, _ => .ok (s1, updatedItem)

/-! ## Specification-side predicates -/

/-- The derived-field contract claimed for every returned budget:
`remaining = amount - spent`; `percentage = spent / amount * 100` with 0
at `amount = 0`; `danger` iff `percentage ≥ 100`, `warning` iff
`80 ≤ percentage < 100`, `good` otherwise. -/
def BudgetView.derivedOk (v : BudgetView) : Prop :=
  v.remaining = v.amount - v.spent ∧
  v.percentage = (if v.amount = 0 then 0 else v.spent / v.amount * 100) ∧
  (v.status = "danger" ↔ 100 ≤ v.percentage) ∧
  (v.status = "warning" ↔ 80 ≤ v.percentage ∧ v.percentage < 100) ∧
  (v.status = "good" ↔ v.percentage < 80)

/-- The standard interval-overlap test named by the spec:
`start₁ ≤ end₂ ∧ start₂ ≤ end₁`. -/
def datesOverlap (s1 e1 s2 e2 : Date) : Prop :=
  s1 ≤ e2 ∧ s2 ≤ e1

instance (s1 e1 s2 e2 : Date) : Decidable (datesOverlap s1 e1 s2 e2) := by
  unfold datesOverlap; infer_instance

/-- Two budgets lie in the same (category, owner, family, period) group. -/
def Budget.sameGroup (a b : Budget) : Prop :=
  a.categoryId = b.categoryId ∧ a.userId = b.userId ∧
  a.familyId = b.familyId ∧ a.period = b.period

instance (a b : Budget) : Decidable (a.sameGroup b) := by
  unfold Budget.sameGroup; infer_instance

/-- Every stored budget window is well-formed (start before end); true of
every budget the application itself writes, since end dates are derived. -/
def State.budgetsWF (s : State) : Prop :=
  ∀ b ∈ s.budgets, b.startDate ≤ b.endDate

instance (s : State) : Decidable s.budgetsWF := by
  unfold State.budgetsWF; infer_instance

/-- The C4 invariant: budgets in one (category, owner, family, period)
group have pairwise non-overlapping windows. -/
def State.budgetInvariant (s : State) : Prop :=
  s.budgets.Pairwise (fun a b => a.sameGroup b →
    ¬ datesOverlap a.startDate a.endDate b.startDate b.endDate)

instance (s : State) : Decidable s.budgetInvariant := by
  unfold State.budgetInvariant; infer_instance

/-- The C5 invariant: every family that has any member has a member with
role ADMIN. -/
def State.adminInvariant (s : State) : Prop :=
  ∀ m ∈ s.members, ∃ a ∈ s.members,
    a.familyId = m.familyId ∧ a.role = FamilyRole.ADMIN

instance (s : State) : Decidable s.adminInvariant := by
  unfold State.adminInvariant; infer_instance

/-- Member rows carry pairwise-distinct ids (a database key constraint). -/
def State.memberIdsNodup (s : State) : Prop :=
  (s.members.map (fun m => m.id)).Nodup

instance (s : State) : Decidable s.memberIdsNodup := by
  unfold State.memberIdsNodup; infer_instance

/-- The transaction predicate of the budget aggregator as the spec words
it: expense direction, same category, owner and family scope, date within
the window inclusive. -/
def spentMatches (b : Budget) (t : Transaction) : Prop :=
  t.type = TxType.EXPENSE ∧ t.categoryId = b.categoryId ∧
  t.userId = b.userId ∧ t.familyId = b.familyId ∧
  b.startDate ≤ t.date ∧ t.date ≤ b.endDate

instance (b : Budget) (t : Transaction) : Decidable (spentMatches b t) := by
  unfold spentMatches; infer_instance

/-! ## General lemmas -/

/-- The three-disjunct overlap test of `createBudget` agrees with the
standard interval-overlap test on well-formed intervals. -/
theorem overlapCheck_iff {b : Budget} {ps pe : Date}
    (hb : b.startDate ≤ b.endDate) (hp : ps ≤ pe) :
    overlapCheck b ps pe = true ↔
      datesOverlap b.startDate b.endDate ps pe := by
  unfold overlapCheck datesOverlap
  simp only [Bool.or_eq_true, Bool.and_eq_true, decide_eq_true_eq]
  simp only [Date.le_def] at *
  omega

/-- The status string of the enrichment, characterised by the percentage
thresholds. -/
theorem status_spec (pct : ℚ) :
    ((if 100 ≤ pct then "danger" else if 80 ≤ pct then "warning" else "good")
        = "danger" ↔ 100 ≤ pct) ∧
    ((if 100 ≤ pct then "danger" else if 80 ≤ pct then "warning" else "good")
        = "warning" ↔ 80 ≤ pct ∧ pct < 100) ∧
    ((if 100 ≤ pct then "danger" else if 80 ≤ pct then "warning" else "good")
        = "good" ↔ pct < 80) := by
  by_cases h100 : 100 ≤ pct
  · rw [if_pos h100]
    refine ⟨iff_of_true rfl h100, iff_of_false (by decide) ?_,
      iff_of_false (by decide) ?_⟩
    · rintro ⟨-, hlt⟩; linarith
    · intro hlt; linarith
  · rw [if_neg h100]
    by_cases h80 : 80 ≤ pct
    · rw [if_pos h80]
      refine ⟨iff_of_false (by decide) h100,
        iff_of_true rfl ⟨h80, lt_of_not_le h100⟩,
        iff_of_false (by decide) ?_⟩
      intro hlt; linarith
    · rw [if_neg h80]
      exact ⟨iff_of_false (by decide) h100,
        iff_of_false (by decide) (fun hx => h80 hx.1),
        iff_of_true rfl (lt_of_not_le h80)⟩

/-- The enrichment helper satisfies the derived-field contract whenever
the stored amount is non-negative. -/
theorem enrichBudget_derivedOk (b : Budget) (txs : List Transaction)
    (h : 0 ≤ b.amount) : (enrichBudget b txs).derivedOk := by
  have hst := status_spec
    (if 0 < b.amount then calculateSpentAmount b txs / b.amount * 100 else 0)
  unfold enrichBudget BudgetView.derivedOk
  dsimp only
  refine ⟨rfl, ?_, hst.1, hst.2.1, hst.2.2⟩
  by_cases h0 : b.amount = 0
  · rw [if_pos h0, if_neg (by rw [h0]; exact lt_irrefl (0 : ℚ))]
  · rw [if_neg h0, if_pos (lt_of_le_of_ne h (Ne.symm h0))]

/-! ## C1: derived budget fields -/

/-- C1: For every budget returned by the `budgets`, `budget`,
`createBudget` and `updateBudget` operations (over a state whose stored
budget amounts are non-negative, as the mutations themselves guarantee),
the derived fields satisfy `remaining = amount - spent`,
`percentage = spent / amount * 100` with 0 at `amount = 0`, and
`status = danger` iff `percentage ≥ 100`, `warning` iff
`80 ≤ percentage < 100`, `good` otherwise. -/
theorem c1_budget_ops_derived_fields (s : State) (caller : Nat)
    (hamt : ∀ b ∈ s.budgets, 0 ≤ b.amount) :
    (∀ period familyId vs, budgetsQuery period familyId caller s = .ok vs →
      ∀ v ∈ vs, v.derivedOk) ∧
    (∀ id v, budgetQuery id caller s = .ok (some v) → v.derivedOk) ∧
    (∀ input s' v, createBudget input caller s = .ok (s', v) → v.derivedOk) ∧
    (∀ id input s' v, updateBudget id input caller s = .ok (s', v) →
      v.derivedOk) := by
  refine ⟨?_, ?_, ?_, ?_⟩
  · intro period familyId vs h v hv
    unfold budgetsQuery at h
    split at h
    · exact Except.noConfusion h
    · injection h with h1
      subst h1
      obtain ⟨b, hb, rfl⟩ := List.mem_map.mp hv
      exact enrichBudget_derivedOk b s.transactions
        (hamt b (List.mem_filter.mp hb).1)
  · intro id v h
    unfold budgetQuery at h
    split at h
    · injection h with h1; exact Option.noConfusion h1
    next b hfind =>
      injection h with h1
      injection h1 with h2
      subst h2
      exact enrichBudget_derivedOk b s.transactions
        (hamt b (List.mem_of_find?_eq_some hfind))
  · intro input s' v h
    unfold createBudget at h
    split at h
    · exact Except.noConfusion h
    next hamt0 =>
      split at h
      · exact Except.noConfusion h
      dsimp only at h
      split at h
      · exact Except.noConfusion h
      split at h
      · exact Except.noConfusion h
      injection h with h1
      have hv := congrArg Prod.snd h1
      dsimp at hv
      subst hv
      exact enrichBudget_derivedOk _ _
        (le_of_lt (lt_of_not_le hamt0))
  · rintro id ⟨amt, per, sd⟩ s' v h
    unfold updateBudget at h
    split at h
    · exact Except.noConfusion h
    next b0 hfind =>
      split at h
      · exact Except.noConfusion h
      next hg =>
        have hb0 : b0 ∈ s.budgets := List.mem_of_find?_eq_some hfind
        injection h with h1
        have hv := congrArg Prod.snd h1
        dsimp at hv
        subst hv
        apply enrichBudget_derivedOk
        cases amt with
        | none => cases per <;> cases sd <;> simpa using hamt b0 hb0
        | some a =>
          have ha : ¬ a ≤ 0 := by simpa using hg
          cases per <;> cases sd <;>
            simpa using le_of_lt (lt_of_not_le ha)

/-- A one-budget state used to instantiate C1. -/
def c1Budget : Budget :=
  ⟨10, 1, 400, BudgetPeriod.MONTHLY, ⟨2025, 8, 1⟩, ⟨2025, 8, 31⟩, 1, none⟩

/-- State holding only `c1Budget`. -/
def c1State : State :=
  { users := [], categories := [], transactions := [], budgets := [c1Budget],
    members := [], lists := [], items := [], nextId := 11 }

/-- Witness for C1: the hypothesis and conclusion at a concrete state. -/
theorem c1_budget_ops_derived_fields_witness :
    (∀ b ∈ c1State.budgets, 0 ≤ b.amount) ∧
    ∃ v, budgetQuery 10 1 c1State = Except.ok (some v) ∧ v.derivedOk := by
  refine ⟨by decide, ?_⟩
  obtain ⟨-, h2, -, -⟩ := c1_budget_ops_derived_fields c1State 1 (by decide)
  exact ⟨_, rfl, h2 10 _ rfl⟩

/-! ## C2: the spent aggregate -/

/-- The August scenario budget: category Food (id 1), $400, monthly. -/
def c2Budget : Budget :=
  ⟨20, 1, 400, BudgetPeriod.MONTHLY, ⟨2025, 8, 1⟩, ⟨2025, 8, 31⟩, 1, none⟩

/-- Scenario transaction of $89.50 dated in August. -/
def c2Tx1 : Transaction :=
  ⟨21, 179/2, "Groceries", TxType.EXPENSE, ⟨2025, 8, 10⟩, 1, 1, none⟩

/-- Scenario transaction of $60.50 dated in August. -/
def c2Tx2 : Transaction :=
  ⟨22, 121/2, "Dining", TxType.EXPENSE, ⟨2025, 8, 20⟩, 1, 1, none⟩

/-- Scenario state. -/
def c2State : State :=
  { users := [], categories := [], transactions := [c2Tx1, c2Tx2],
    budgets := [c2Budget], members := [], lists := [], items := [],
    nextId := 23 }

/-- C2: the derived `spent` equals the sum of the amounts of the
EXPENSE-direction transactions with the budget's category, owner and
family scope whose date lies within the inclusive window; and the $400
August budget with $89.50 and $60.50 August expenses yields
`spent = 150.00`, `remaining = 250.00`, `percentage = 37.5`,
`status = good`. -/
theorem c2_spent_aggregate :
    (∀ (b : Budget) (txs : List Transaction),
      calculateSpentAmount b txs =
        ((txs.filter (fun t => decide (spentMatches b t))).map
          (fun t => t.amount)).sum) ∧
    (∃ v, budgetQuery 20 1 c2State = Except.ok (some v) ∧
      v.spent = 150 ∧ v.remaining = 250 ∧ v.percentage = 75/2 ∧
      v.status = "good") := by
  constructor
  · intro b txs
    have hf : txs.filter (fun t =>
        t.categoryId == b.categoryId &&
        t.userId == b.userId &&
        t.familyId == b.familyId &&
        t.type == TxType.EXPENSE &&
        decide (b.startDate ≤ t.date) &&
        decide (t.date ≤ b.endDate)) =
        txs.filter (fun t => decide (spentMatches b t)) := by
      apply List.filter_congr
      intro t _
      rw [Bool.eq_iff_iff]
      simp only [Bool.and_eq_true, decide_eq_true_eq, beq_iff_eq, spentMatches]
      tauto
    unfold calculateSpentAmount
    rw [hf]
  · have hspent : calculateSpentAmount c2Budget c2State.transactions = 150 := by
      have h1 : calculateSpentAmount c2Budget c2State.transactions
          = c2Tx1.amount + (c2Tx2.amount + 0) := rfl
      rw [h1]
      norm_num [c2Tx1, c2Tx2]
    have hpct : (if 0 < c2Budget.amount then
        calculateSpentAmount c2Budget c2State.transactions / c2Budget.amount * 100
        else 0) = 75/2 := by
      rw [hspent, if_pos (by norm_num [c2Budget] : (0:ℚ) < c2Budget.amount)]
      norm_num [c2Budget]
    refine ⟨_, rfl, hspent, ?_, hpct, ?_⟩
    · show c2Budget.amount - calculateSpentAmount c2Budget c2State.transactions
        = 250
      rw [hspent]; norm_num [c2Budget]
    · show (if 100 ≤ (if 0 < c2Budget.amount then
          calculateSpentAmount c2Budget c2State.transactions / c2Budget.amount
            * 100 else 0) then "danger"
        else if 80 ≤ (if 0 < c2Budget.amount then
          calculateSpentAmount c2Budget c2State.transactions / c2Budget.amount
            * 100 else 0) then "warning"
        else "good") = "good"
      rw [hpct]
      norm_num

/-! ## C3: the overlap check of createBudget -/

/-- A valid start date precedes its derived period end. -/
theorem le_periodEnd_self {d : Date} (h : d.valid) (p : BudgetPeriod) :
    d ≤ periodEnd p d := by
  cases p
  · exact le_endOfMonth_self h
  · exact le_endOfYear_self h

/-- C3: with a positive amount, a visible category, well-formed stored
windows and a calendar-valid start date, `createBudget` fails with the
BUDGET_EXISTS conflict iff some existing budget of the same (category,
owner, family, period) group intersects the proposed window under the
standard interval-overlap test (to which the code's three-disjunct check
is equivalent); and with family access and no such overlap it succeeds. -/
theorem c3_create_budget_overlap (s : State) (caller : Nat)
    (input : CreateBudgetInput)
    (hamt : ¬ input.amount ≤ 0)
    (hcat : (s.categories.find? (fun c =>
      c.id == input.categoryId &&
        (c.userId == some caller || c.isDefault))).isSome)
    (hwf : s.budgetsWF) (hv : input.startDate.valid) :
    ((∃ e, createBudget input caller s = .error e ∧
        e.code = some "BUDGET_EXISTS") ↔
      ∃ b ∈ s.budgets, b.categoryId = input.categoryId ∧ b.userId = caller ∧
        b.familyId = input.familyId ∧ b.period = input.period ∧
        datesOverlap b.startDate b.endDate input.startDate
          (periodEnd input.period input.startDate)) ∧
    (familyAccessDenied input.familyId caller s = false →
      ¬ (∃ b ∈ s.budgets, b.categoryId = input.categoryId ∧
          b.userId = caller ∧ b.familyId = input.familyId ∧
          b.period = input.period ∧
          datesOverlap b.startDate b.endDate input.startDate
            (periodEnd input.period input.startDate)) →
      (createBudget input caller s).isOk = true) := by
  have hpwf : input.startDate ≤ periodEnd input.period input.startDate :=
    le_periodEnd_self hv input.period
  have hcat' : (s.categories.find? (fun c =>
      c.id == input.categoryId &&
        (c.userId == some caller || c.isDefault))).isNone = false := by
    cases ho : s.categories.find? (fun c =>
        c.id == input.categoryId && (c.userId == some caller || c.isDefault)) with
    | none => rw [ho] at hcat; exact absurd hcat (by simp)
    | some c => rfl
  have hiff : (s.budgets.find? (fun b =>
      b.categoryId == input.categoryId &&
      b.userId == caller &&
      b.familyId == input.familyId &&
      b.period == input.period &&
      overlapCheck b input.startDate
        (periodEnd input.period input.startDate))).isSome = true ↔
      (∃ b ∈ s.budgets, b.categoryId = input.categoryId ∧ b.userId = caller ∧
        b.familyId = input.familyId ∧ b.period = input.period ∧
        datesOverlap b.startDate b.endDate input.startDate
          (periodEnd input.period input.startDate)) := by
    rw [List.find?_isSome]
    constructor
    · rintro ⟨b, hb, hpred⟩
      simp only [Bool.and_eq_true, beq_iff_eq] at hpred
      obtain ⟨⟨⟨⟨h1, h2⟩, h3⟩, h4⟩, h5⟩ := hpred
      exact ⟨b, hb, h1, h2, h3, h4, (overlapCheck_iff (hwf b hb) hpwf).mp h5⟩
    · rintro ⟨b, hb, h1, h2, h3, h4, h5⟩
      refine ⟨b, hb, ?_⟩
      simp only [Bool.and_eq_true, beq_iff_eq]
      exact ⟨⟨⟨⟨h1, h2⟩, h3⟩, h4⟩, (overlapCheck_iff (hwf b hb) hpwf).mpr h5⟩
  have hstep : createBudget input caller s =
      (if (s.budgets.find? (fun b =>
          b.categoryId == input.categoryId &&
          b.userId == caller &&
          b.familyId == input.familyId &&
          b.period == input.period &&
          overlapCheck b input.startDate
            (periodEnd input.period input.startDate))).isSome then
        .error ⟨"A budget for this category and period already exists", 409,
          some "BUDGET_EXISTS"⟩
      else if familyAccessDenied input.familyId caller s then
        .error ⟨"Access denied to family", 403, none⟩
      else
        let b : Budget :=
          { id := s.nextId, categoryId := input.categoryId,
            amount := input.amount, period := input.period,
            startDate := input.startDate,
            endDate := periodEnd input.period input.startDate,
            userId := caller, familyId := input.familyId }
        let s' := { s with budgets := s.budgets ++ [b], nextId := s.nextId + 1 }
        .ok (s', enrichBudget b s'.transactions)) := by
    unfold createBudget
    rw [if_neg hamt]
    simp only [hcat', Bool.false_eq_true, if_false]
  constructor
  · by_cases hos : (s.budgets.find? (fun b =>
        b.categoryId == input.categoryId &&
        b.userId == caller &&
        b.familyId == input.familyId &&
        b.period == input.period &&
        overlapCheck b input.startDate
          (periodEnd input.period input.startDate))).isSome = true
    · refine iff_of_true
        ⟨⟨"A budget for this category and period already exists", 409,
          some "BUDGET_EXISTS"⟩, ?_, rfl⟩ (hiff.mp hos)
      rw [hstep, if_pos hos]
    · apply iff_of_false
      · rintro ⟨e, he, hcode⟩
        rw [hstep, if_neg hos] at he
        split at he
        · injection he with h1
          subst h1
          exact Option.noConfusion hcode
        · exact Except.noConfusion he
      · intro hex
        exact hos (hiff.mpr hex)
  · intro hfam hno
    have hos : ¬ (s.budgets.find? (fun b =>
        b.categoryId == input.categoryId &&
        b.userId == caller &&
        b.familyId == input.familyId &&
        b.period == input.period &&
        overlapCheck b input.startDate
          (periodEnd input.period input.startDate))).isSome = true :=
      fun hx => hno (hiff.mp hx)
    rw [hstep, if_neg hos, if_neg (by rw [hfam]; exact Bool.false_ne_true)]
    rfl

/-- Category used by the C3 witness instantiation. -/
def c3Cat : Category := ⟨1, "Food", TxType.EXPENSE, none, true⟩

/-- Existing August budget conflicting with the C3 proposal. -/
def c3Budget : Budget :=
  ⟨30, 1, 400, BudgetPeriod.MONTHLY, ⟨2025, 8, 1⟩, ⟨2025, 8, 31⟩, 1, none⟩

/-- C3 witness state. -/
def c3State : State :=
  { users := [], categories := [c3Cat], transactions := [],
    budgets := [c3Budget], members := [], lists := [], items := [],
    nextId := 31 }

/-- C3 witness proposal: the same August window again. -/
def c3Input : CreateBudgetInput :=
  ⟨1, 300, BudgetPeriod.MONTHLY, ⟨2025, 8, 1⟩, none⟩

/-- Witness for C3: the conflicting proposal is rejected with
BUDGET_EXISTS at a concrete state. -/
theorem c3_create_budget_overlap_witness :
    ∃ e, createBudget c3Input 1 c3State = Except.error e ∧
      e.code = some "BUDGET_EXISTS" := by
  have h := (c3_create_budget_overlap c3State 1 c3Input (by decide) (by decide)
    (by decide) (by decide)).1
  exact h.mpr ⟨c3Budget, by decide, rfl, rfl, rfl, rfl, by decide⟩

/-! ## C4: the non-overlap invariant under mutations -/

/-- August budget of the C4 counterexample group. -/
def c4B1 : Budget :=
  ⟨30, 1, 100, BudgetPeriod.MONTHLY, ⟨2025, 8, 1⟩, ⟨2025, 8, 31⟩, 1, none⟩

/-- September budget of the C4 counterexample group. -/
def c4B2 : Budget :=
  ⟨31, 1, 100, BudgetPeriod.MONTHLY, ⟨2025, 9, 1⟩, ⟨2025, 9, 30⟩, 1, none⟩

/-- C4 counterexample state: two non-overlapping budgets of one group. -/
def c4State : State :=
  { users := [], categories := [], transactions := [],
    budgets := [c4B1, c4B2], members := [], lists := [], items := [],
    nextId := 32 }

/-- C4 counterexample input: move the September budget into August. -/
def c4Input : UpdateBudgetInput := ⟨none, none, some ⟨2025, 8, 15⟩⟩

/-- Counterexample to C4: starting from an invariant-satisfying state,
`updateBudget` (which performs no overlap check) accepts a start-date
change that makes the two budgets of one group overlap. -/
theorem c4_counterexample :
    c4State.budgetInvariant ∧
    (updateBudget 31 c4Input 1 c4State).toOption.map
      (fun r => decide r.1.budgetInvariant) = some false := by
  constructor
  · decide
  · decide

/-- Amended C4: `createBudget` does preserve the invariant (the overlap
check guards the new row's interval against its whole group), while
`updateBudget` performs no such check. -/
theorem c4_amended_createBudget_preserves (s : State)
    (input : CreateBudgetInput) (caller : Nat)
    (hwf : s.budgetsWF) (hv : input.startDate.valid)
    (hinv : s.budgetInvariant) :
    ∀ s' v, createBudget input caller s = .ok (s', v) →
      s'.budgetInvariant := by
  intro s' v h
  unfold createBudget at h
  split at h
  · exact Except.noConfusion h
  split at h
  · exact Except.noConfusion h
  dsimp only at h
  split at h
  · exact Except.noConfusion h
  next hover =>
    split at h
    · exact Except.noConfusion h
    injection h with h1
    have hs := congrArg Prod.fst h1
    dsimp at hs
    subst hs
    have hnone : ∀ b ∈ s.budgets, ¬ (b.categoryId == input.categoryId &&
        b.userId == caller &&
        b.familyId == input.familyId &&
        b.period == input.period &&
        overlapCheck b input.startDate
          (periodEnd input.period input.startDate)) = true := by
      intro b hb
      intro hpred
      exact hover (List.find?_isSome.mpr ⟨b, hb, hpred⟩)
    show (s.budgets ++ [_]).Pairwise _
    rw [List.pairwise_append]
    refine ⟨hinv, List.pairwise_singleton _ _, ?_⟩
    intro a ha b hb hsg
    rw [List.mem_singleton] at hb
    subst hb
    intro hovl
    apply hnone a ha
    obtain ⟨h1, h2, h3, h4⟩ := hsg
    simp only [Bool.and_eq_true, beq_iff_eq]
    refine ⟨⟨⟨⟨h1, h2⟩, h3⟩, h4⟩, ?_⟩
    exact (overlapCheck_iff (hwf a ha) (le_periodEnd_self hv input.period)).mpr
      hovl

/-- Category for the C4 witness instantiation. -/
def c4WCat : Category := ⟨1, "Food", TxType.EXPENSE, none, true⟩

/-- C4 witness state: one August budget. -/
def c4WState : State :=
  { users := [], categories := [c4WCat], transactions := [],
    budgets := [c4B1], members := [], lists := [], items := [],
    nextId := 40 }

/-- C4 witness input: a non-overlapping September budget. -/
def c4WInput : CreateBudgetInput :=
  ⟨1, 100, BudgetPeriod.MONTHLY, ⟨2025, 9, 1⟩, none⟩

/-- Witness for the amended C4: a successful creation from an
invariant-satisfying concrete state preserves the invariant. -/
theorem c4_amended_createBudget_preserves_witness :
    c4WState.budgetsWF ∧ (⟨2025, 9, 1⟩ : Date).valid ∧
    c4WState.budgetInvariant ∧
    ∃ s' v, createBudget c4WInput 1 c4WState = Except.ok (s', v) ∧
      s'.budgetInvariant := by
  refine ⟨by decide, by decide, by decide, ?_⟩
  exact ⟨_, _, rfl, c4_amended_createBudget_preserves c4WState c4WInput 1
    (by decide) (by decide) (by decide) _ _ rfl⟩

/-! ## C5: the at-least-one-admin invariant -/

/-- A list of two or more members with pairwise-distinct ids contains a
member whose id differs from any given id. -/
theorem exists_mem_id_ne {l : List FamilyMember}
    (hnd : (l.map (fun m => m.id)).Nodup) (h2 : 2 ≤ l.length) (i : Nat) :
    ∃ x ∈ l, x.id ≠ i := by
  match l with
  | [] => simp at h2
  | [x] => simp at h2
  | x :: y :: ys =>
    by_cases hx : x.id = i
    · have hne : x.id ≠ y.id := by
        rw [List.map_cons, List.map_cons, List.nodup_cons] at hnd
        exact fun h => hnd.1 (by rw [h]; exact List.mem_cons_self _ _)
      refine ⟨y, by simp, fun hy => ?_⟩
      exact hne (by rw [hx, hy])
    · exact ⟨x, by simp, hx⟩

/-- The admins of a family, as counted by `adminCount`. -/
theorem adminCount_eq (fid : Nat) (s : State) :
    adminCount fid s = (s.members.filter (fun x =>
      x.familyId == fid && x.role == FamilyRole.ADMIN)).length := rfl

/-- Core removal argument: deleting the member row `m` (found in a family
`fid`) preserves the admin invariant when the last-admin guard held. -/
theorem remove_preserves_admin (s : State) (m : FamilyMember) (fid : Nat)
    (hnd : s.memberIdsNodup) (hinv : s.adminInvariant)
    (hm : m ∈ s.members) (hmfid : m.familyId = fid)
    (hguard : ¬ (m.role == FamilyRole.ADMIN && adminCount fid s == 1) = true) :
    ∀ m' ∈ s.members.filter (fun x => x.id != m.id),
      ∃ a ∈ s.members.filter (fun x => x.id != m.id),
        a.familyId = m'.familyId ∧ a.role = FamilyRole.ADMIN := by
  intro m' hm'
  have hm'mem := (List.mem_filter.mp hm').1
  obtain ⟨a, ha, hafid, harole⟩ := hinv m' hm'mem
  by_cases haid : a.id = m.id
  · have ham : a = m := List.inj_on_of_nodup_map hnd ha hm haid
    have hrole : m.role = FamilyRole.ADMIN := by rw [← ham]; exact harole
    have hcnt : adminCount fid s ≠ 1 := by
      intro hc
      exact hguard (by simp [hrole, hc])
    have hmadm : m ∈ s.members.filter (fun x =>
        x.familyId == fid && x.role == FamilyRole.ADMIN) :=
      List.mem_filter.mpr ⟨hm, by simp [hmfid, hrole]⟩
    have h1le : 0 < (s.members.filter (fun x =>
        x.familyId == fid && x.role == FamilyRole.ADMIN)).length :=
      List.length_pos_of_mem hmadm
    have h2le : 2 ≤ (s.members.filter (fun x =>
        x.familyId == fid && x.role == FamilyRole.ADMIN)).length := by
      have heq := adminCount_eq fid s
      omega
    have hnd2 : ((s.members.filter (fun x =>
        x.familyId == fid && x.role == FamilyRole.ADMIN)).map
          (fun m => m.id)).Nodup :=
      List.Nodup.sublist
        (List.Sublist.map _ (List.filter_sublist s.members)) hnd
    obtain ⟨b, hb, hbid⟩ := exists_mem_id_ne hnd2 h2le m.id
    have hbmem := (List.mem_filter.mp hb).1
    have hbprops := (List.mem_filter.mp hb).2
    simp only [Bool.and_eq_true, beq_iff_eq] at hbprops
    refine ⟨b, List.mem_filter.mpr ⟨hbmem, by simp [hbid]⟩, ?_, hbprops.2⟩
    have hmm' : m.familyId = m'.familyId := by rw [← ham]; exact hafid
    rw [hbprops.1, ← hmfid, hmm']
  · exact ⟨a, List.mem_filter.mpr ⟨ha, by simp [haid]⟩, hafid, harole⟩

/-- C5 as it survives on the code: `removeMember` and `leaveFamily`
preserve the at-least-one-admin invariant (the LAST_ADMIN guard), and
removing an admin who is not the last one succeeds.  (`updateMember`,
also named by the claim, does not preserve it — see the
counterexample.) -/
theorem c5_admin_invariant (s : State)
    (hnd : s.memberIdsNodup) (hinv : s.adminInvariant) :
    (∀ fid mid caller s', removeMember fid mid caller s = .ok s' →
      s'.adminInvariant) ∧
    (∀ fid caller s', leaveFamily fid caller s = .ok s' →
      s'.adminInvariant) ∧
    (∀ fid mid caller m,
      s.members.find? (fun x => x.id == mid && x.familyId == fid) = some m →
      m.role = FamilyRole.ADMIN → adminCount fid s ≠ 1 →
      (m.userId = caller ∨
        verifyFamilyPermission fid caller "MANAGE_MEMBERS" s = .ok ()) →
      (removeMember fid mid caller s).isOk = true) := by
  refine ⟨?_, ?_, ?_⟩
  · intro fid mid caller s' h
    unfold removeMember at h
    split at h
    · exact Except.noConfusion h
    next m hfind =>
      split at h
      · exact Except.noConfusion h
      split at h
      · exact Except.noConfusion h
      next hguard =>
        injection h with h1
        subst h1
        have hpred := List.find?_some hfind
        simp only [Bool.and_eq_true, beq_iff_eq] at hpred
        intro m' hm'
        have hmid : (fun (x : FamilyMember) => x.id != mid) =
            (fun (x : FamilyMember) => x.id != m.id) := by
          funext x; rw [hpred.1]
        rw [hmid] at hm' ⊢
        exact remove_preserves_admin s m fid hnd hinv
          (List.mem_of_find?_eq_some hfind) hpred.2 hguard m' hm'
  · intro fid caller s' h
    unfold leaveFamily at h
    split at h
    · exact Except.noConfusion h
    next m hfind =>
      split at h
      · exact Except.noConfusion h
      next hguard =>
        injection h with h1
        subst h1
        have hpred := List.find?_some hfind
        simp only [Bool.and_eq_true, beq_iff_eq] at hpred
        intro m' hm'
        exact remove_preserves_admin s m fid hnd hinv
          (List.mem_of_find?_eq_some hfind) hpred.1 hguard m' hm'
  · intro fid mid caller m hfind hrole hcnt hauth
    unfold removeMember
    rw [hfind]
    dsimp only
    have hstep : (if m.userId != caller then
        verifyFamilyPermission fid caller "MANAGE_MEMBERS" s
      else .ok ()) = Except.ok () := by
      rcases hauth with h | h
      · rw [if_neg (by simp [h])]
      · by_cases hc : (m.userId != caller) = true
        · rw [if_pos hc]; exact h
        · rw [if_neg hc]
    rw [hstep]
    rw [if_neg (by simp [hrole, hcnt])]
    rfl

/-- Sole admin of the C5 counterexample family. -/
def c5M1 : FamilyMember := ⟨1, 1, 1, FamilyRole.ADMIN, []⟩

/-- Non-admin member holding MANAGE_MEMBERS. -/
def c5M2 : FamilyMember := ⟨2, 1, 2, FamilyRole.MEMBER, ["MANAGE_MEMBERS"]⟩

/-- C5 counterexample state. -/
def c5State : State :=
  { users := [], categories := [], transactions := [], budgets := [],
    members := [c5M1, c5M2], lists := [], items := [], nextId := 3 }

/-- C5 counterexample input: demote the sole admin to MEMBER. -/
def c5Input : UpdateMemberInput := ⟨some FamilyRole.MEMBER, none⟩

/-- Counterexample to C5: `updateMember` has no last-admin check, so the
member with MANAGE_MEMBERS demotes the only admin and the family is left
with no admin. -/
theorem c5_counterexample :
    c5State.adminInvariant ∧
    (updateMember 1 1 c5Input 2 c5State).toOption.map
      (fun r => decide r.1.adminInvariant) = some false := by
  constructor
  · decide
  · decide

/-- Two admins in one family, for the C5 witness. -/
def c5WM1 : FamilyMember := ⟨1, 1, 1, FamilyRole.ADMIN, []⟩

/-- Second admin of the C5 witness family. -/
def c5WM2 : FamilyMember := ⟨2, 1, 2, FamilyRole.ADMIN, []⟩

/-- C5 witness state. -/
def c5WState : State :=
  { users := [], categories := [], transactions := [], budgets := [],
    members := [c5WM1, c5WM2], lists := [], items := [], nextId := 3 }

/-- Witness for C5: removing one of two admins succeeds and preserves the
invariant at a concrete state. -/
theorem c5_admin_invariant_witness :
    c5WState.memberIdsNodup ∧ c5WState.adminInvariant ∧
    ∃ s', removeMember 1 2 1 c5WState = Except.ok s' ∧ s'.adminInvariant := by
  refine ⟨by decide, by decide, ?_⟩
  obtain ⟨h1, -, -⟩ := c5_admin_invariant c5WState (by decide) (by decide)
  exact ⟨_, rfl, h1 1 2 1 _ rfl⟩

/-! ## C6: the family authorization check -/

/-- C6: with no (family, user) membership row, `verifyFamilyPermission`
fails with the single 404 "Family not found or access denied" error that
does not distinguish non-existence from denial; an ADMIN membership is
granted unconditionally; otherwise permission is granted iff the required
string is in the stored permissions array; and a non-admin member without
MANAGE_MEMBERS invoking `inviteMember` receives a 403 AccessDenied. -/
theorem c6_verify_family_permission (s : State) (fid u : Nat) (p : String) :
    (s.members.find? (fun m => m.familyId == fid && m.userId == u) = none →
      verifyFamilyPermission fid u p s =
        .error ⟨"Family not found or access denied", 404, none⟩) ∧
    (∀ m, s.members.find? (fun m => m.familyId == fid && m.userId == u) =
        some m → m.role = FamilyRole.ADMIN →
      verifyFamilyPermission fid u p s = .ok ()) ∧
    (∀ m, s.members.find? (fun m => m.familyId == fid && m.userId == u) =
        some m → m.role ≠ FamilyRole.ADMIN →
      (verifyFamilyPermission fid u p s = .ok () ↔ p ∈ m.permissions)) ∧
    (∀ m (input : InviteMemberInput),
      s.members.find? (fun m => m.familyId == fid && m.userId == u) = some m →
      m.role ≠ FamilyRole.ADMIN → "MANAGE_MEMBERS" ∉ m.permissions →
      ∃ e, inviteMember fid input u s = .error e ∧ e.status = 403) := by
  refine ⟨?_, ?_, ?_, ?_⟩
  · intro h
    unfold verifyFamilyPermission
    rw [h]
  · intro m hfind hadm
    unfold verifyFamilyPermission
    rw [hfind]
    dsimp only
    rw [if_pos (by simp [hadm])]
  · intro m hfind hnadm
    unfold verifyFamilyPermission
    rw [hfind]
    dsimp only
    rw [if_neg (by simp [hnadm])]
    by_cases hc : m.permissions.contains p = true
    · rw [if_pos hc]
      exact iff_of_true rfl (by simpa using hc)
    · rw [if_neg hc]
      refine iff_of_false (fun hx => Except.noConfusion hx) (fun hmem => ?_)
      exact hc (by simpa using hmem)
  · intro m input hfind hnadm hnp
    have hverr : verifyFamilyPermission fid u "MANAGE_MEMBERS" s =
        .error ⟨"Access denied. " ++ "MANAGE_MEMBERS" ++
          " permission required.", 403, none⟩ := by
      unfold verifyFamilyPermission
      rw [hfind]
      dsimp only
      rw [if_neg (by simp [hnadm])]
      rw [if_neg (fun hc => hnp (by simpa using hc))]
    refine ⟨⟨"Access denied. " ++ "MANAGE_MEMBERS" ++
      " permission required.", 403, none⟩, ?_, rfl⟩
    unfold inviteMember
    rw [hverr]

/-- Non-admin member without MANAGE_MEMBERS, for the C6 witness. -/
def c6Member : FamilyMember := ⟨1, 1, 2, FamilyRole.MEMBER, ["VIEW"]⟩

/-- C6 witness state. -/
def c6State : State :=
  { users := [], categories := [], transactions := [], budgets := [],
    members := [c6Member], lists := [], items := [], nextId := 2 }

/-- Witness for C6: the concrete non-admin member without MANAGE_MEMBERS
is denied the permission and receives a 403 from `inviteMember`. -/
theorem c6_verify_family_permission_witness :
    verifyFamilyPermission 1 2 "MANAGE_MEMBERS" c6State ≠ Except.ok () ∧
    ∃ e, inviteMember 1 ⟨"a@b.com", FamilyRole.MEMBER, []⟩ 2 c6State =
      Except.error e ∧ e.status = 403 := by
  obtain ⟨-, -, h3, h4⟩ := c6_verify_family_permission c6State 1 2
    "MANAGE_MEMBERS"
  constructor
  · intro hok
    have hmem := (h3 c6Member rfl (by decide)).mp hok
    exact absurd hmem (by decide)
  · exact h4 c6Member _ rfl (by decide) (by decide)

/-! ## C7: query visibility -/

/-- Insertion keeps exactly the inserted element and the old ones. -/
theorem mem_insertByDateDesc {x t : Transaction} {l : List Transaction} :
    x ∈ insertByDateDesc t l ↔ x = t ∨ x ∈ l := by
  induction l with
  | nil => simp [insertByDateDesc]
  | cons y ys ih =>
    unfold insertByDateDesc
    split
    · simp [List.mem_cons]
    · simp only [List.mem_cons, ih]
      tauto

/-- Sorting by date preserves membership. -/
theorem mem_sortByDateDesc {x : Transaction} {l : List Transaction} :
    x ∈ sortByDateDesc l ↔ x ∈ l := by
  unfold sortByDateDesc
  induction l with
  | nil => simp
  | cons y ys ih =>
    rw [List.foldr_cons, mem_insertByDateDesc, ih, List.mem_cons]

/-- Amended C7: the queries are owner-scoped, not family-visibility
scoped.  Transactions and budgets return only rows owned by the caller
(transactions additionally windowed by pagination); categories return
exactly the caller's own and the default categories.  A row owned by
another user is never returned, even to a permitted member of the row's
family. -/
theorem c7_amended_visibility (s : State) (caller : Nat) :
    (∀ page limit filters t,
      t ∈ (transactionsQuery page limit filters caller s).transactions →
      t ∈ s.transactions ∧ t.userId = caller ∧
        txMatchesFilters filters caller t = true) ∧
    (∀ period familyId vs, budgetsQuery period familyId caller s = .ok vs →
      ∀ v ∈ vs, ∃ b ∈ s.budgets, b.userId = caller ∧
        v = enrichBudget b s.transactions) ∧
    (∀ ty c, c ∈ categoriesQuery ty caller s ↔
      c ∈ s.categories ∧ (c.userId = some caller ∨ c.isDefault = true) ∧
      ∀ t0, ty = some t0 → c.type = t0) := by
  refine ⟨?_, ?_, ?_⟩
  · intro page limit filters t ht
    unfold transactionsQuery at ht
    dsimp only at ht
    have h1 : t ∈ sortByDateDesc
        (s.transactions.filter (txMatchesFilters filters caller)) :=
      List.drop_subset _ _ (List.take_subset _ _ ht)
    have h2 := List.mem_filter.mp (mem_sortByDateDesc.mp h1)
    refine ⟨h2.1, ?_, h2.2⟩
    have h3 := h2.2
    unfold txMatchesFilters at h3
    simp only [Bool.and_eq_true, beq_iff_eq] at h3
    exact h3.1
  · intro period familyId vs h v hv
    unfold budgetsQuery at h
    split at h
    · exact Except.noConfusion h
    · injection h with h1
      subst h1
      obtain ⟨b, hb, rfl⟩ := List.mem_map.mp hv
      unfold budgetRows at hb
      have hf := List.mem_filter.mp hb
      refine ⟨b, hf.1, ?_, rfl⟩
      have hf2 := hf.2
      simp only [Bool.and_eq_true, beq_iff_eq] at hf2
      exact hf2.1.1
  · intro ty c
    unfold categoriesQuery
    rw [List.mem_filter]
    simp only [Bool.and_eq_true, Bool.or_eq_true, beq_iff_eq]
    constructor
    · rintro ⟨h1, h2, h3⟩
      refine ⟨h1, h2, ?_⟩
      intro t0 ht0
      subst ht0
      simpa using h3
    · rintro ⟨h1, h2, h3⟩
      refine ⟨h1, h2, ?_⟩
      cases ty with
      | none => rfl
      | some t0 => simpa using h3 t0 rfl

/-- Transaction owned by user 1 inside family 5. -/
def c7Tx : Transaction :=
  ⟨1, 5, "Family groceries", TxType.EXPENSE, ⟨2025, 8, 1⟩, 1, 1, some 5⟩

/-- Caller 2's membership in family 5 (with the VIEW permission). -/
def c7Member : FamilyMember := ⟨1, 5, 2, FamilyRole.MEMBER, ["VIEW"]⟩

/-- A category owned by caller 2, for the witness. -/
def c7Cat : Category := ⟨9, "Own", TxType.EXPENSE, some 2, false⟩

/-- C7 counterexample state. -/
def c7State : State :=
  { users := [], categories := [c7Cat], transactions := [c7Tx],
    budgets := [], members := [c7Member], lists := [], items := [],
    nextId := 10 }

/-- Family filter naming family 5. -/
def c7Filters : TransactionFilters :=
  ⟨none, none, none, none, none, none, none, some 5⟩

/-- Counterexample to C7: user 1's transaction in family 5 satisfies the
claimed visibility disjunction for caller 2 (a permitted member of family
5) and the query's family filter, yet the transactions query for caller 2
returns nothing — the code filters strictly by `userId = caller`. -/
theorem c7_counterexample :
    (∃ m ∈ c7State.members, m.familyId = 5 ∧ m.userId = 2) ∧
    c7Tx ∈ c7State.transactions ∧ c7Tx.familyId = some 5 ∧
    (transactionsQuery 1 50 (some c7Filters) 2 c7State).transactions = [] := by
  refine ⟨⟨c7Member, by simp [c7State], rfl, rfl⟩, by simp [c7State], rfl, rfl⟩

/-- Witness for the amended C7: the caller's own category is returned by
the categories query at a concrete state. -/
theorem c7_amended_visibility_witness :
    c7Cat ∈ categoriesQuery none 2 c7State := by
  exact ((c7_amended_visibility c7State 2).2.2 none c7Cat).mpr
    ⟨by simp [c7State], Or.inl rfl, fun t0 h => Option.noConfusion h⟩

/-! ## C8: transaction amount validation -/

/-- Amended C8: the only amount validation in `createTransaction` and
`updateTransaction` is `amount <= 0` — accepted amounts are therefore
strictly positive (hence non-negative), and an amount `≤ 0` is rejected
with a VALIDATION_ERROR; but the at-most-2-decimal-places bound (defined
in `isValidAmount`, which these resolvers never call) is not enforced. -/
theorem c8_amount_validation (s : State) (caller : Nat) :
    (∀ input s' t, createTransaction input caller s = .ok (s', t) →
      0 < input.amount) ∧
    (∀ input : CreateTransactionInput, input.amount ≤ 0 →
      createTransaction input caller s =
        .error ⟨"Amount must be greater than 0", 400,
          some "VALIDATION_ERROR"⟩) ∧
    (∀ id input s' t a, updateTransaction id input caller s = .ok (s', t) →
      input.amount = some a → 0 < a) ∧
    (∀ id (input : UpdateTransactionInput) a m, input.amount = some a →
      a ≤ 0 →
      s.transactions.find? (fun x => x.id == id && x.userId == caller) =
        some m →
      updateTransaction id input caller s =
        .error ⟨"Amount must be greater than 0", 400,
          some "VALIDATION_ERROR"⟩) := by
  refine ⟨?_, ?_, ?_, ?_⟩
  · intro input s' t h
    unfold createTransaction at h
    split at h
    · exact Except.noConfusion h
    next hna => exact lt_of_not_le hna
  · intro input hle
    unfold createTransaction
    rw [if_pos hle]
  · intro id input s' t a h ha
    unfold updateTransaction at h
    split at h
    · exact Except.noConfusion h
    next t0 hfind =>
      split at h
      · exact Except.noConfusion h
      next hg =>
        simp only [ha, decide_eq_true_eq] at hg
        exact lt_of_not_le hg
  · intro id input a m ha hle hfind
    unfold updateTransaction
    rw [hfind]
    dsimp only
    rw [ha]
    dsimp only
    rw [if_pos (decide_eq_true hle)]

/-- Default category for the C8 counterexample. -/
def c8Cat : Category := ⟨1, "Misc", TxType.EXPENSE, none, true⟩

/-- C8 counterexample state. -/
def c8State : State :=
  { users := [], categories := [c8Cat], transactions := [], budgets := [],
    members := [], lists := [], items := [], nextId := 2 }

/-- The amount 10.123, which has three decimal places. -/
def c8Amount : ℚ := mkRat 10123 1000

/-- C8 counterexample input. -/
def c8Input : CreateTransactionInput :=
  ⟨c8Amount, "coffee", TxType.EXPENSE, ⟨2025, 8, 1⟩, 1, none⟩

/-- Counterexample to C8: the amount 10.123 violates the 2-decimal-places
bound (as `isValidAmount` itself attests), yet `createTransaction`
accepts it — no ValidationError is raised. -/
theorem c8_counterexample :
    isValidAmount c8Amount = false ∧
    (c8Amount * 100).den ≠ 1 ∧
    (createTransaction c8Input 1 c8State).isOk = true := by
  have hm : c8Amount * 100 = mkRat 10123 10 := by
    unfold c8Amount
    rw [Rat.mkRat_eq_div, Rat.mkRat_eq_div]
    norm_num
  refine ⟨?_, ?_, ?_⟩
  · unfold isValidAmount
    rw [hm]
    decide
  · rw [hm]; decide
  · rfl

/-- Witness for the amended C8: a zero amount is rejected with the
VALIDATION_ERROR at a concrete input. -/
theorem c8_amount_validation_witness :
    createTransaction ⟨0, "x", TxType.EXPENSE, ⟨2025, 8, 1⟩, 1, none⟩ 1
      c8State =
    Except.error ⟨"Amount must be greater than 0", 400,
      some "VALIDATION_ERROR"⟩ := by
  exact (c8_amount_validation c8State 1).2.1
    ⟨0, "x", TxType.EXPENSE, ⟨2025, 8, 1⟩, 1, none⟩ (by norm_num)

/-! ## C9: create-then-list round trip -/

/-- The filter of the round-trip query: the new transaction's category,
and `startDate = endDate =` its date. -/
def c9Filters (input : CreateTransactionInput) : TransactionFilters :=
  ⟨some input.date, some input.date, some [input.categoryId], none, none,
    none, none, none⟩

/-- Sorting a list whose dates all share one chronological key is the
identity (the sort is stable and every comparison ties). -/
theorem sortByDateDesc_of_const_key {l : List Transaction} {k : Nat}
    (h : ∀ x ∈ l, x.date.key = k) : sortByDateDesc l = l := by
  induction l with
  | nil => rfl
  | cons y ys ih =>
    have hys : sortByDateDesc ys = ys :=
      ih (fun x hx => h x (List.mem_cons_of_mem _ hx))
    unfold sortByDateDesc at hys ⊢
    rw [List.foldr_cons, hys]
    cases ys with
    | nil => rfl
    | cons z zs =>
      unfold insertByDateDesc
      rw [if_pos ?hc]
      case hc =>
        rw [Date.le_def, h z (by simp), h y (by simp)]

/-- A transaction matching the round-trip filter carries the new
transaction's date key. -/
theorem date_key_of_c9_match {input : CreateTransactionInput}
    {caller : Nat} {x : Transaction}
    (h : txMatchesFilters (some (c9Filters input)) caller x = true) :
    x.date.key = input.date.key := by
  unfold txMatchesFilters c9Filters at h
  simp only [Bool.and_eq_true, decide_eq_true_eq] at h
  have h1 : input.date ≤ x.date := by tauto
  have h2 : x.date ≤ input.date := by tauto
  exact Nat.le_antisymm ((Date.le_def _ _).mp h2) ((Date.le_def _ _).mp h1)

/-- Listing after appending a fresh matching row: with fewer than 50 old
matching rows, the first default page contains the new row exactly once. -/
theorem query_append_new (s : State) (caller : Nat)
    (fl : TransactionFilters) (T : Transaction)
    (hT : txMatchesFilters (some fl) caller T = true)
    (hkeyT : ∀ x, txMatchesFilters (some fl) caller x = true →
      x.date.key = T.date.key)
    (hfresh : ∀ x ∈ s.transactions, x.id ≠ T.id)
    (hcount : (s.transactions.filter
      (txMatchesFilters (some fl) caller)).length < 50) :
    ((transactionsQuery 1 50 (some fl) caller
      { s with
        transactions := s.transactions ++ [T]
        nextId := s.nextId + 1 }).transactions.countP
        (fun x => x.id == T.id)) = 1 := by
  unfold transactionsQuery
  dsimp only
  rw [List.filter_append]
  have hf1 : List.filter (txMatchesFilters (some fl) caller) [T] = [T] := by
    simp [List.filter_cons, hT]
  rw [hf1]
  have hkeys : ∀ x ∈ List.filter (txMatchesFilters (some fl) caller)
      s.transactions ++ [T], x.date.key = T.date.key := by
    intro x hx
    rcases List.mem_append.mp hx with hx | hx
    · exact hkeyT x (List.mem_filter.mp hx).2
    · rw [List.mem_singleton] at hx
      subst hx
      rfl
  rw [sortByDateDesc_of_const_key hkeys]
  rw [show (1 - 1) * 50 = 0 from rfl, List.drop_zero]
  rw [List.take_of_length_le (by
    rw [List.length_append, List.length_singleton]
    omega)]
  rw [List.countP_append]
  have hz : List.countP (fun x => x.id == T.id)
      (List.filter (txMatchesFilters (some fl) caller) s.transactions) = 0 := by
    rw [List.countP_eq_zero]
    intro a ha
    have := hfresh a (List.mem_filter.mp ha).1
    simp [this]
  rw [hz]
  simp

/-- Amended C9: creating a transaction and immediately listing with the
category-and-date filter returns it exactly once, provided fewer than 50
(the default page limit) of the caller's transactions already match that
filter — with 50 or more, the default first page can exclude it (see the
counterexample). -/
theorem c9_roundtrip (s : State) (caller : Nat)
    (input : CreateTransactionInput)
    (hfresh : ∀ t ∈ s.transactions, t.id ≠ s.nextId)
    (hcount : (s.transactions.filter
      (txMatchesFilters (some (c9Filters input)) caller)).length < 50) :
    ∀ s' t, createTransaction input caller s = .ok (s', t) →
      ((transactionsQuery 1 50 (some (c9Filters input)) caller
        s').transactions.countP (fun x => x.id == t.id)) = 1 := by
  intro s' t h
  unfold createTransaction at h
  split at h
  · exact Except.noConfusion h
  split at h
  · exact Except.noConfusion h
  split at h
  · exact Except.noConfusion h
  split at h
  · exact Except.noConfusion h
  injection h with h1
  have hs := congrArg Prod.fst h1
  have ht := congrArg Prod.snd h1
  dsimp at hs ht
  subst hs
  subst ht
  exact query_append_new s caller (c9Filters input) _
    (by simp [txMatchesFilters, c9Filters, Date.le_def])
    (fun x hx => date_key_of_c9_match hx) hfresh hcount

/-- Default category for the C9 instantiations. -/
def c9Cat : Category := ⟨1, "Food", TxType.EXPENSE, none, true⟩

/-- One of the 50 August 10 transactions already stored. -/
def c9Tx : Transaction :=
  ⟨1, 1, "old", TxType.EXPENSE, ⟨2025, 8, 10⟩, 1, 1, none⟩

/-- C9 counterexample state: 50 matching transactions already exist. -/
def c9State : State :=
  { users := [], categories := [c9Cat],
    transactions := List.replicate 50 c9Tx, budgets := [], members := [],
    lists := [], items := [], nextId := 100 }

/-- C9 counterexample input: one more transaction in the same category
and on the same date. -/
def c9Input : CreateTransactionInput :=
  ⟨5, "new", TxType.EXPENSE, ⟨2025, 8, 10⟩, 1, none⟩

/-- Counterexample to C9 as stated for every state: with 50 matching
transactions already present, the newly created transaction is pushed
past the default page (page 1, limit 50) and the round-trip query returns
it zero times, not once. -/
theorem c9_counterexample :
    (createTransaction c9Input 1 c9State).toOption.map
      (fun r => (transactionsQuery 1 50 (some (c9Filters c9Input)) 1
        r.1).transactions.countP (fun x => x.id == r.2.id)) = some 0 := by
  decide

/-- C9 witness state: no prior transactions. -/
def c9WState : State :=
  { users := [], categories := [c9Cat], transactions := [], budgets := [],
    members := [], lists := [], items := [], nextId := 7 }

/-- Witness for the amended C9 round trip at a concrete state. -/
theorem c9_roundtrip_witness :
    ∃ s' t, createTransaction c9Input 1 c9WState = Except.ok (s', t) ∧
      ((transactionsQuery 1 50 (some (c9Filters c9Input)) 1
        s').transactions.countP (fun x => x.id == t.id)) = 1 := by
  exact ⟨_, _, rfl,
    c9_roundtrip c9WState 1 c9Input (by decide) (by decide) _ _ rfl⟩

/-! ## C10: the actualPrice fallback of markItemPurchased -/

/-- C10: on success, the recorded actualPrice is the
`input.actualPrice || item.estimatedPrice` fallback — an omitted/null
price and the (falsy) price 0 fall back to the estimated price, a
non-zero supplied price is recorded as given — and when
`createTransaction` is true and the item has a category, the spawned
EXPENSE transaction carries that same amount. -/
theorem c10_actual_price_fallback (s : State) (itemId caller : Nat)
    (email : String) (now : Date) (ap : Option ℚ) (ct : Bool) :
    ∀ s' view, markItemPurchased itemId ⟨ap, ct⟩ caller email now s =
        .ok (s', view) →
      ∃ item, s.items.find? (fun i => i.id == itemId) = some item ∧
        view.actualPrice = some (resolvedActualPrice ⟨ap, ct⟩ item) ∧
        (ap = none ∨ ap = some 0 →
          resolvedActualPrice ⟨ap, ct⟩ item = item.estimatedPrice) ∧
        (∀ p, ap = some p → p ≠ 0 →
          resolvedActualPrice ⟨ap, ct⟩ item = p) ∧
        (ct = true → ∀ cid, item.categoryId = some cid →
          ∃ tx, s'.transactions = s.transactions ++ [tx] ∧
            tx.amount = resolvedActualPrice ⟨ap, ct⟩ item ∧
            tx.type = TxType.EXPENSE ∧ tx.categoryId = cid ∧
            tx.userId = caller ∧ tx.date = now) := by
  have hfb1 : ∀ item : ShoppingListItem, (ap = none ∨ ap = some 0) →
      resolvedActualPrice ⟨ap, ct⟩ item = item.estimatedPrice := by
    intro item hap
    rcases hap with h | h <;> subst h <;> simp [resolvedActualPrice]
  have hfb2 : ∀ (item : ShoppingListItem) p, ap = some p → p ≠ 0 →
      resolvedActualPrice ⟨ap, ct⟩ item = p := by
    intro item p hp hp0
    subst hp
    simp [resolvedActualPrice, hp0]
  intro s' view h
  unfold markItemPurchased at h
  split at h
  · exact Except.noConfusion h
  next item hifind =>
    split at h
    · exact Except.noConfusion h
    next list hlfind =>
      split at h
      · exact Except.noConfusion h
      next hacc =>
        dsimp only at h
        cases ct with
        | false =>
          dsimp only at h
          injection h with h1
          have hsv := congrArg Prod.snd h1
          dsimp at hsv
          subst hsv
          refine ⟨item, hifind, rfl, hfb1 item, hfb2 item, ?_⟩
          intro hct
          exact absurd hct (by simp)
        | true =>
          split at h
          next cid hcid =>
            injection h with h1
            have hs1 := congrArg Prod.fst h1
            have hsv := congrArg Prod.snd h1
            dsimp at hs1 hsv
            subst hs1
            subst hsv
            refine ⟨item, hifind, rfl, hfb1 item, hfb2 item, ?_⟩
            intro hct cid' hcid'
            rw [hcid] at hcid'
            injection hcid' with hc
            subst hc
            exact ⟨_, rfl, rfl, rfl, rfl, rfl, rfl⟩
          next hnone =>
            injection h with h1
            have hsv := congrArg Prod.snd h1
            dsimp at hsv
            subst hsv
            refine ⟨item, hifind, rfl, hfb1 item, hfb2 item, ?_⟩
            intro hct cid hcid'
            exact absurd hcid' (hnone cid rfl)

/-- Shopping list of the C10 witness. -/
def c10List : ShoppingList := ⟨1, 1, [], none⟩

/-- Unpurchased item with estimated price 20 and a category. -/
def c10Item : ShoppingListItem :=
  ⟨2, 1, "Milk", 20, none, some 1, false, none, none, none⟩

/-- C10 witness state. -/
def c10State : State :=
  { users := [], categories := [], transactions := [], budgets := [],
    members := [], lists := [c10List], items := [c10Item], nextId := 3 }

/-- Witness for C10: marking the item purchased with no supplied price
records the estimated-price fallback at a concrete state. -/
theorem c10_actual_price_fallback_witness :
    ∃ item, c10State.items.find? (fun i => i.id == 2) = some item ∧
      ∃ s' view, markItemPurchased 2 ⟨none, true⟩ 1 "u@e.com" ⟨2025, 8, 2⟩
          c10State = Except.ok (s', view) ∧
        view.actualPrice = some (resolvedActualPrice ⟨none, true⟩ item) ∧
        resolvedActualPrice ⟨none, true⟩ item = item.estimatedPrice := by
  cases hE : markItemPurchased 2 ⟨none, true⟩ 1 "u@e.com" ⟨2025, 8, 2⟩
      c10State with
  | error e =>
    have hok : (markItemPurchased 2 ⟨none, true⟩ 1 "u@e.com" ⟨2025, 8, 2⟩
        c10State).isOk = true := rfl
    rw [hE] at hok
    exact Bool.noConfusion hok
  | ok r =>
    obtain ⟨s', view⟩ := r
    obtain ⟨item, hfind, hview, hfb1, -, -⟩ :=
      c10_actual_price_fallback c10State 2 1 "u@e.com" ⟨2025, 8, 2⟩ none true
        s' view hE
    exact ⟨item, hfind, s', view, rfl, hview, hfb1 (Or.inl rfl)⟩
